import Mathlib

/-!
# Verification of the PF2e compendium directory search

A shallow embedding of `src/module/apps/ui/compendium-directory.ts`
(`CompendiumDirectoryPF2e`): the search-index compilation
(`#compileSearchIndex`), the filter reconciliation (`_onSearchFilter`),
and the drag-payload construction (`_onDragStart`), together with a model
of the configured MiniSearch engine (an external dependency, modelled from
the spec where its behaviour is not in the repository source).

Strings are modelled as Lean `String`s; locale-aware lower-casing
(`String.prototype.toLocaleLowerCase(game.i18n.lang)`) is kept abstract as
a parameter `lower : String → String`, instantiated with the concrete
`localeLower` in examples.
-/

namespace CompendiumDirectoryPF2e

/-- Pack metadata as attached to search records: `pack.metadata` with fields
`id` (the collection id), `label` (display title) and `type` (document type). -/
structure PackMetadata where
  id : String
  label : String
  type : String
deriving DecidableEq, Repr

/-- One entry of a pack's content index (`CompendiumIndexData`): `_id`,
`name`, optional `img`, and the document's own `type` field. -/
structure IndexEntry where
  id : String
  name : String
  img : Option String
  type : String
deriving DecidableEq, Repr

/-- A compendium pack (`CompendiumCollection`) as seen by the directory:
collection id, display title, document type name, privacy flag, content
index, and metadata. -/
structure Pack where
  collection : String
  title : String
  documentName : String
  isPrivate : Bool
  index : List IndexEntry
  metadata : PackMetadata
deriving DecidableEq, Repr

/-- A record stored in the search engine: the spread of an `IndexEntry`
plus the owning pack's metadata (`{...i, metadata: pack.metadata}`). -/
structure SearchIndexRecord where
  id : String
  name : String
  img : Option String
  type : String
  metadata : PackMetadata
deriving DecidableEq, Repr

/-! ## The configured MiniSearch engine

The engine is constructed with
`fields: ["name"], idField: "_id",
processTerm: (t) => (t.length > 1 ? t.toLocaleLowerCase(game.i18n.lang) : null),
searchOptions: { combineWith: "AND", prefix: true }`.
`processTerm` is translated directly from the source; tokenization and the
query algorithm are those of the MiniSearch dependency, which is not part
of this repository, so they are modelled from the spec. -/

/-- Test `s.startsWith p`, computed structurally on the character lists so that
it evaluates in the kernel. -/
def strStartsWith (s p : String) : Bool :=
  p.toList.isPrefixOf s.toList

/-- JS `String.prototype.includes`: substring containment, computed
structurally on the character lists. -/
def strIncludes (s sub : String) : Bool :=
  (List.range (s.toList.length + 1)).any fun i => sub.toList.isPrefixOf (s.toList.drop i)

/-- The concrete case-folding used to instantiate the abstract `lower`
parameter in examples: character-wise ASCII lower-casing (a kernel-reducible
stand-in for `toLocaleLowerCase(game.i18n.lang)`). -/
def localeLower (s : String) : String :=
  String.mk (s.toList.map Char.toLower)

/-- The `processTerm` of the engine configuration (source line 14):
a term of length > 1 is locale-lower-cased, a shorter term is dropped
(`null`). -/
def processTerm (lower : String → String) (t : String) : Option String :=
  if t.length > 1 then some (lower t) else none

/-- Modelled from the spec: the MiniSearch default tokenizer, which splits
a string into maximal runs of word characters ("a query is split into
terms"). -/
def tokenize (s : String) : List String :=
  ((s.toList.splitOnP fun c => !c.isAlphanum).filter fun l => l ≠ []).map String.mk

/-- The processed terms under which a record's display name is indexed:
each token of the name, passed through `processTerm`. -/
def indexTokens (lower : String → String) (r : SearchIndexRecord) : List String :=
  (tokenize r.name).filterMap (processTerm lower)

/-- The processed terms of a query string: each token, passed through
`processTerm` (MiniSearch applies `processTerm` at search time as well). -/
def queryTerms (lower : String → String) (q : String) : List String :=
  (tokenize q).filterMap (processTerm lower)

/-- A processed query term matches a record iff some indexed token of the
record starts with it (`prefix: true`). -/
def termMatches (lower : String → String) (term : String) (r : SearchIndexRecord) : Bool :=
  (indexTokens lower r).any fun tok => strStartsWith tok term

/-- Modelled from the spec: `searchEngine.search` with
`combineWith: "AND", prefix: true` — a record is returned iff every
processed query term matches it; a query with no processed terms returns
no records (never "all records"). -/
def search (lower : String → String) (records : List SearchIndexRecord) (q : String) :
    List SearchIndexRecord :=
  let terms := queryTerms lower q
  if terms.isEmpty then []
  else records.filter fun r => terms.all fun t => termMatches lower t r

/-- Modelled from the spec: `searchEngine.addAll` — bulk insertion that
signals a duplicate-key error when a record's identifier collides with one
already present, rather than silently overwriting. -/
def addAll : List SearchIndexRecord → List SearchIndexRecord →
    Except String (List SearchIndexRecord)
  | idx, [] => Except.ok idx
  | idx, r :: rs =>
    if idx.any fun r0 => r0.id == r.id then Except.error ("duplicate ID " ++ r.id)
    else addAll (idx ++ [r]) rs

/-- Retrieval by identifier from the stored records (`idField: "_id"`). -/
def getById (idx : List SearchIndexRecord) (i : String) : Option SearchIndexRecord :=
  idx.find? fun r => r.id == i

/-! ## `#compileSearchIndex` (source lines 213–227) -/

/-- The pack filter of `#compileSearchIndex`:
`p.index.size > 0 && p.documentName !== "JournalEntry" && (game.user.isGM || !p.private)`. -/
def eligiblePack (gm : Bool) (p : Pack) : Bool :=
  decide (0 < p.index.length) && p.documentName != "JournalEntry" && (gm || !p.isPrivate)

/-- The spread `{...i, metadata: pack.metadata}`: an index entry turned into a search
record by attaching the owning pack's metadata under the `metadata` field,
leaving the entry's own `type` field untouched. -/
def toRecord (p : Pack) (i : IndexEntry) : SearchIndexRecord :=
  { id := i.id, name := i.name, img := i.img, type := i.type, metadata := p.metadata }

/-- The body of `#compileSearchIndex`: the records handed to `searchEngine.addAll` —
every index entry of every eligible pack, with metadata attached. -/
def compileSearchIndex (gm : Bool) (packs : List Pack) : List SearchIndexRecord :=
  (packs.filter (eligiblePack gm)).flatMap fun p => (p.index.map (toRecord p))

/-! ## `_onSearchFilter` (source lines 98–176)

The DOM-free reconciliation model: pack rows are identified by their
`data-collection` string, and each row's final inline `display` style is
one of `shown` (`"list-item"`), `hidden` (`"none"`), or `unchanged`
(the reconciliation pass did not touch it). -/

/-- Final display state of a pack row after one `_onSearchFilter` pass. -/
inductive RowDisplay where
  | shown
  | hidden
  | unchanged
deriving DecidableEq, Repr

/-- The `matchesQuery` closure (source lines 100–102): the pack title, locale
lower-cased, contains the locale lower-cased query as a substring. -/
def matchesQuery (lower : String → String) (query : String) (p : Pack) : Bool :=
  strIncludes (lower p.title) (lower query)

/-- The `filteredPacks` list (source line 103): title-matching packs for a non-empty
query, all packs for the empty query. -/
def filteredPacks (lower : String → String) (query : String) (packs : List Pack) : List Pack :=
  if query.length > 0 then packs.filter (matchesQuery lower query) else packs

/-- The show loop (source lines 109–118): a row gets `display: "list-item"`
iff it exists and some filtered pack has its collection id and is not
private-and-viewer-not-GM. -/
def rowShownInLoop (gm : Bool) (lower : String → String) (packs : List Pack)
    (query : String) (rows : List String) (rowId : String) : Bool :=
  rows.contains rowId &&
    (filteredPacks lower query packs).any fun p =>
      p.collection == rowId && !(p.isPrivate && !gm)

/-- The hide loop (source lines 120–127): for a non-empty query, a row gets
`display: "none"` iff the pack looked up by its collection id is not among
the filtered packs (a row with an unresolvable collection id is hidden). -/
def rowInHideList (lower : String → String) (packs : List Pack)
    (query : String) (rows : List String) (rowId : String) : Bool :=
  rows.contains rowId && query.length > 0 &&
    !(match packs.find? fun p => p.collection == rowId with
      | some p => (filteredPacks lower query packs).contains p
      | none => false)

/-- The final display state of a row: the hide loop runs after the show
loop, so hiding wins when both apply; a row in neither loop keeps its
previous style. -/
def rowDisplay (gm : Bool) (lower : String → String) (packs : List Pack)
    (query : String) (rows : List String) (rowId : String) : RowDisplay :=
  if rowInHideList lower packs query rows rowId then RowDisplay.hidden
  else if rowShownInLoop gm lower packs query rows rowId then RowDisplay.shown
  else RowDisplay.unchanged

/-- The document pass (source line 130): the search engine is consulted
only for a non-empty query; the empty query yields no matches without
touching the index. -/
def docMatches (lower : String → String) (records : List SearchIndexRecord)
    (query : String) : List SearchIndexRecord :=
  if query.length > 0 then search lower records query else []

/-- The grouping loop (source lines 137–175): each `li.compendium-type`
list (identified by its `data-type`) receives exactly the matches whose
owning-pack metadata type equals that type, replacing previous contents. -/
def groupedMatches (typeLists : List String) (ms : List SearchIndexRecord) :
    List (String × List SearchIndexRecord) :=
  typeLists.map fun t => (t, ms.filter fun m => m.metadata.type == t)

/-- The observable outcome of one `_onSearchFilter` pass: each row's final
display state, and the per-type match lists rendered into the DOM. -/
structure ReconcileOutcome where
  rowStates : List (String × RowDisplay)
  groups : List (String × List SearchIndexRecord)
deriving DecidableEq, Repr

/-- The method `_onSearchFilter` (source lines 98–176) as a fallible function: row
visibility is applied, then the document pass runs; with zero matches the
method returns early (no group rendering), otherwise a missing
`#compendium-search-match` template is a thrown error
(`ErrorPF2e("Match template not found")`, source lines 134–135). -/
def onSearchFilter (gm : Bool) (lower : String → String) (packs : List Pack)
    (rows : List String) (records : List SearchIndexRecord) (typeLists : List String)
    (templatePresent : Bool) (query : String) : Except String ReconcileOutcome :=
  let states := rows.map fun rId => (rId, rowDisplay gm lower packs query rows rId)
  let ms := docMatches lower records query
  if ms.length = 0 then Except.ok { rowStates := states, groups := [] }
  else if templatePresent then
    Except.ok { rowStates := states, groups := groupedMatches typeLists ms }
  else Except.error "Match template not found"

/-! ## `_onDragStart` (source lines 184–211) -/

/-- The transferable descriptor set as `"text/plain"` drag data. -/
structure DragData where
  type : String
  uuid : String
deriving DecidableEq, Repr

/-- JS truthiness of an optional dataset string: `undefined` and the empty
string are falsy. -/
def truthy : Option String → Bool
  | none => false
  | some s => s != ""

/-- The observable outcome of `_onDragStart`: `noData` models the early
`return` (nothing happens: no throw, no preview removal, no drag data);
`fatal` models a strict lookup failure (a thrown error); `started` records
whether a stale preview was removed, the preview's title and image, and
the transferred descriptor. -/
inductive DragResult where
  | noData
  | fatal (msg : String)
  | started (removedOldPreview : Bool) (previewTitle : String)
      (previewImg : Option String) (data : DragData)
deriving DecidableEq, Repr

/-- The method `_onDragStart` (source lines 184–211): guard on both dataset ids, then
strict pack and index-entry lookups, then preview cleanup/creation and the
descriptor `{ type: pack.documentName, uuid:
"Compendium." + pack.collection + "." + documentId }`. -/
def onDragStart (packs : List Pack) (collection documentId : Option String)
    (oldPreviewExists : Bool) : DragResult :=
  if truthy collection && truthy documentId then
    match collection, documentId with
    | some c, some d =>
      match packs.find? fun p => p.collection == c with
      | none => DragResult.fatal "pack not found"
      | some pack =>
        match pack.index.find? fun e => e.id == d with
        | none => DragResult.fatal "entry not found"
        | some entry =>
          DragResult.started oldPreviewExists entry.name entry.img
            { type := pack.documentName,
              uuid := "Compendium." ++ pack.collection ++ "." ++ d }
    | _, _ => DragResult.noData
  else DragResult.noData

/-! ## Concrete scenario data -/

/-- The index entry `{id: "e1", name: "Goblin Warrior"}` of the spec's
scenario. -/
def goblinEntry : IndexEntry :=
  { id := "e1", name := "Goblin Warrior", img := none, type := "npc" }

/-- The pack `{id: "p1", title: "Bestiary", type: "Actor", private: false,
entries: [goblinEntry]}` of the spec's scenario. -/
def bestiaryPack : Pack :=
  { collection := "p1", title := "Bestiary", documentName := "Actor", isPrivate := false,
    index := [goblinEntry], metadata := { id := "p1", label := "Bestiary", type := "Actor" } }

/-- The search record compiled from `bestiaryPack`'s single entry. -/
def goblinRec : SearchIndexRecord := toRecord bestiaryPack goblinEntry

/-- A private pack whose title and single document name both equal the
query used against it. -/
def secretPack : Pack :=
  { collection := "s1", title := "Secret", documentName := "Actor", isPrivate := true,
    index := [{ id := "d1", name := "Secret", img := none, type := "npc" }],
    metadata := { id := "s1", label := "Secret", type := "Actor" } }

/-- The index entry dragged in the drag-payload scenario. -/
def wbEntry : IndexEntry :=
  { id := "e1", name := "Goblin Warrior", img := some "goblin.webp", type := "npc" }

/-- The pack with collection id `"world.bestiary"` of the drag-payload
scenario. -/
def wbPack : Pack :=
  { collection := "world.bestiary", title := "Bestiary", documentName := "Actor",
    isPrivate := false, index := [wbEntry],
    metadata := { id := "world.bestiary", label := "Bestiary", type := "Actor" } }

/-! ## Helper lemmas -/

/-- A record returned by `search` is one of the stored records. -/
theorem mem_of_mem_search {lower : String → String} {records : List SearchIndexRecord}
    {q : String} {r : SearchIndexRecord} (hr : r ∈ search lower records q) : r ∈ records := by
  unfold search at hr
  by_cases h : (queryTerms lower q).isEmpty
  · simp [h] at hr
  · simp only [h, if_neg, Bool.false_eq_true, not_false_eq_true, if_false] at hr
    exact (List.mem_filter.mp hr).1

/-- A record returned by `search` satisfies every processed query term. -/
theorem termMatches_of_mem_search {lower : String → String}
    {records : List SearchIndexRecord} {q : String} {r : SearchIndexRecord}
    (hr : r ∈ search lower records q) :
    ∀ t ∈ queryTerms lower q, termMatches lower t r = true := by
  unfold search at hr
  by_cases h : (queryTerms lower q).isEmpty
  · simp [h] at hr
  · simp only [h, if_neg, Bool.false_eq_true, not_false_eq_true, if_false] at hr
    exact List.all_eq_true.mp (List.mem_filter.mp hr).2

/-- Membership in the compiled index, unfolded. -/
theorem mem_compileSearchIndex {gm : Bool} {packs : List Pack} {r : SearchIndexRecord} :
    r ∈ compileSearchIndex gm packs ↔
      ∃ p ∈ packs, eligiblePack gm p = true ∧ ∃ e ∈ p.index, toRecord p e = r := by
  simp [compileSearchIndex, List.mem_flatMap, List.mem_filter, List.mem_map, and_assoc]

/-- The Boolean pack-eligibility test, as a proposition. -/
theorem eligiblePack_iff {gm : Bool} {p : Pack} :
    eligiblePack gm p = true ↔
      p.index ≠ [] ∧ p.documentName ≠ "JournalEntry" ∧ (gm = true ∨ p.isPrivate = false) := by
  simp [eligiblePack, List.length_pos, Bool.or_eq_true, Bool.not_eq_true', and_assoc]

/-- A member of `filteredPacks` is one of the packs. -/
theorem mem_of_mem_filteredPacks {lower : String → String} {query : String}
    {packs : List Pack} {p : Pack} (hp : p ∈ filteredPacks lower query packs) : p ∈ packs := by
  unfold filteredPacks at hp
  by_cases h : query.length > 0
  · simp only [h, if_pos] at hp
    exact (List.mem_filter.mp hp).1
  · simpa [h] using hp

/-- Bulk insertion succeeds on identifier-distinct input and returns the
previous contents extended by the new records in order. -/
theorem addAll_ok_of_nodup :
    ∀ (rs idx : List SearchIndexRecord),
      (((idx ++ rs).map SearchIndexRecord.id).Nodup) → addAll idx rs = Except.ok (idx ++ rs) := by
  intro rs
  induction rs with
  | nil => intro idx _; simp [addAll]
  | cons r rs ih =>
    intro idx h
    have hmap : ((idx ++ r :: rs).map SearchIndexRecord.id) =
        idx.map SearchIndexRecord.id ++ r.id :: rs.map SearchIndexRecord.id := by
      simp
    rw [hmap] at h
    have hdisj := (List.nodup_append.mp h).2.2
    have hany : (idx.any fun r0 => r0.id == r.id) = false := by
      rw [List.any_eq_false]
      intro r0 hr0
      simp only [beq_iff_eq]
      intro heq
      exact hdisj (a := r.id) (heq ▸ List.mem_map_of_mem SearchIndexRecord.id hr0)
        (List.mem_cons_self r.id _)
    have hassoc : idx ++ r :: rs = (idx ++ [r]) ++ rs := by simp
    rw [addAll, hany]
    simp only [Bool.false_eq_true, if_false]
    rw [hassoc]
    exact ih (idx ++ [r]) (by rw [← hassoc, hmap]; exact h)

/-- If bulk insertion succeeds from a state with distinct identifiers, then
the inserted records had globally distinct identifiers and the result is
the concatenation. -/
theorem addAll_ok_nodup :
    ∀ (rs idx out : List SearchIndexRecord),
      addAll idx rs = Except.ok out → ((idx.map SearchIndexRecord.id).Nodup) →
      out = idx ++ rs ∧ (((idx ++ rs).map SearchIndexRecord.id).Nodup) := by
  intro rs
  induction rs with
  | nil =>
    intro idx out hok hnd
    rw [addAll] at hok
    cases hok
    simpa using hnd
  | cons r rs ih =>
    intro idx out hok hnd
    rw [addAll] at hok
    by_cases hany : (idx.any fun r0 => r0.id == r.id) = true
    · rw [if_pos hany] at hok
      cases hok
    · rw [if_neg hany] at hok
      have hany2 : (idx.any fun r0 => r0.id == r.id) = false := Bool.eq_false_iff.mpr hany
      have hnotmem : r.id ∉ idx.map SearchIndexRecord.id := by
        intro hmem
        rcases List.mem_map.mp hmem with ⟨r0, hr0, hid⟩
        exact (List.any_eq_false.mp hany2 r0 hr0) (by simp [hid])
      have hnd2 : ((idx ++ [r]).map SearchIndexRecord.id).Nodup := by
        simp only [List.map_append, List.map_cons, List.map_nil]
        exact List.Nodup.append hnd (List.nodup_singleton r.id)
          (by intro a ha hb; simp at hb; exact hnotmem (hb ▸ ha))
      rcases ih (idx ++ [r]) out hok hnd2 with ⟨hout, hnd3⟩
      constructor
      · rw [hout]; simp
      · have : (idx ++ [r]) ++ rs = idx ++ r :: rs := by simp
        rwa [this] at hnd3

/-- With distinct identifiers, lookup by a stored record's identifier
returns that record. -/
theorem getById_of_nodup :
    ∀ (records : List SearchIndexRecord),
      ((records.map SearchIndexRecord.id).Nodup) →
      ∀ r ∈ records, getById records r.id = some r := by
  intro records
  induction records with
  | nil => intro _ r hr; cases hr
  | cons a l ih =>
    intro hnd r hr
    have hnd2 : (l.map SearchIndexRecord.id).Nodup := (List.nodup_cons.mp (by simpa using hnd)).2
    have hnotmem : a.id ∉ l.map SearchIndexRecord.id := (List.nodup_cons.mp (by simpa using hnd)).1
    rcases List.mem_cons.mp hr with heq | hmem
    · subst heq
      simp [getById, List.find?]
    · have hne : (a.id == r.id) = false := by
        simp only [beq_eq_false_iff_ne, ne_eq]
        intro heq
        exact hnotmem (heq ▸ List.mem_map_of_mem SearchIndexRecord.id hmem)
      have := ih hnd2 r hmem
      simpa [getById, List.find?, hne] using this

/-! ## Claim theorems -/

/-- C8: For every term processed during indexing or querying, a term
shorter than 2 characters is dropped entirely (it is neither indexed nor
matchable), and every term of length 2 or more is lowercased using the
locale of the active display language. -/
theorem processTerm_drops_short_folds_rest (lower : String → String) (t : String) :
    (t.length < 2 → processTerm lower t = none) ∧
    (2 ≤ t.length → processTerm lower t = some (lower t)) := by
  constructor
  · intro h
    rw [processTerm, if_neg (by omega)]
  · intro h
    rw [processTerm, if_pos (by omega)]

/-- Witness for C8 at the concrete terms `"x"` and `"Gob"`. -/
theorem processTerm_drops_short_folds_rest_witness :
    processTerm localeLower "x" = none ∧
    processTerm localeLower "Gob" = some (localeLower "Gob") :=
  ⟨(processTerm_drops_short_folds_rest localeLower "x").1 (by decide),
   (processTerm_drops_short_folds_rest localeLower "Gob").2 (by decide)⟩

/-- C10: For every drag-start event whose drag element's dataset lacks
either the collection id or the document id (absent or empty, hence falsy),
`_onDragStart` returns without throwing, without removing any existing drag
preview element, and without setting any drag data — modelled by the result
`DragResult.noData`; the strict, fatal lookups are only reached when both
identifiers are present. -/
theorem onDragStart_missing_id_noop (packs : List Pack) (c d : Option String) (old : Bool)
    (h : truthy c = false ∨ truthy d = false) :
    onDragStart packs c d old = DragResult.noData := by
  unfold onDragStart
  rcases h with h | h <;> simp [h]

/-- Witness for C10: a dataset with an empty collection id. -/
theorem onDragStart_missing_id_noop_witness :
    onDragStart [wbPack] (some "") (some "e1") true = DragResult.noData :=
  onDragStart_missing_id_noop [wbPack] (some "") (some "e1") true (Or.inl (by decide))

/-- C7: For every drag started on an entry with document id `d` inside a
resolvable pack with collection id `c` and document type
`pack.documentName`, the transferred descriptor is exactly
`{ type: pack.documentName, uuid: "Compendium." ++ c ++ "." ++ d }` (and
the preview carries the entry's name and image, with any stale preview
removed). -/
theorem onDragStart_descriptor_exact (packs : List Pack) (c d : String) (pack : Pack)
    (entry : IndexEntry) (old : Bool) (hc : c ≠ "") (hd : d ≠ "")
    (hpack : (packs.find? fun p => p.collection == c) = some pack)
    (hentry : (pack.index.find? fun e => e.id == d) = some entry) :
    onDragStart packs (some c) (some d) old =
      DragResult.started old entry.name entry.img
        { type := pack.documentName, uuid := "Compendium." ++ pack.collection ++ "." ++ d } := by
  unfold onDragStart
  simp [truthy, hc, hd, hpack, hentry]

/-- Witness for C7: entry `"e1"` in the pack with collection id
`"world.bestiary"` and document type `"Actor"` yields uuid
`"Compendium.world.bestiary.e1"` and type `"Actor"`. -/
theorem onDragStart_descriptor_exact_witness :
    onDragStart [wbPack] (some "world.bestiary") (some "e1") false =
      DragResult.started false "Goblin Warrior" (some "goblin.webp")
        { type := "Actor", uuid := "Compendium.world.bestiary.e1" } :=
  onDragStart_descriptor_exact [wbPack] "world.bestiary" "e1" wbPack wbEntry false
    (by decide) (by decide) (by decide) (by decide)

/-- C4: The search index built at directory construction contains exactly
the index entries of the eligible packs — a pack is eligible iff its
content-index is non-empty, its document type is not `"JournalEntry"`, and
it is either non-private or the viewer is GM — and every stored record
carries its owning pack's metadata under the `metadata` field, distinct
from the entry's own `type` field, which is kept verbatim. -/
theorem compileSearchIndex_exactly_eligible (gm : Bool) (packs : List Pack)
    (r : SearchIndexRecord) :
    (r ∈ compileSearchIndex gm packs ↔
      ∃ p ∈ packs,
        (p.index ≠ [] ∧ p.documentName ≠ "JournalEntry" ∧ (gm = true ∨ p.isPrivate = false)) ∧
        ∃ e ∈ p.index, toRecord p e = r) ∧
    (∀ p e, (toRecord p e).type = e.type ∧ (toRecord p e).metadata = p.metadata ∧
      (toRecord p e).id = e.id ∧ (toRecord p e).name = e.name ∧ (toRecord p e).img = e.img) := by
  constructor
  · rw [mem_compileSearchIndex]
    constructor
    · rintro ⟨p, hp, helig, he⟩
      exact ⟨p, hp, eligiblePack_iff.mp helig, he⟩
    · rintro ⟨p, hp, helig, he⟩
      exact ⟨p, hp, eligiblePack_iff.mpr helig, he⟩
  · intro p e
    exact ⟨rfl, rfl, rfl, rfl, rfl⟩

/-- Witness for C4: the scenario record is in the compiled index of its
non-private, non-journal, non-empty pack. -/
theorem compileSearchIndex_exactly_eligible_witness :
    goblinRec ∈ compileSearchIndex false [bestiaryPack] :=
  (compileSearchIndex_exactly_eligible false [bestiaryPack] goblinRec).1.mpr (by decide)

/-- C9: Reconciling with the empty query string yields zero document
matches — the search index is not consulted, never "all records" (the
result is `[]` for every store of records) — and marks every pack row the
viewer is permitted to see (an existing row whose pack is non-private or
the viewer is GM) as shown. -/
theorem empty_query_shows_permitted (gm : Bool) (lower : String → String)
    (packs : List Pack) (rows : List String) (records : List SearchIndexRecord) :
    docMatches lower records "" = [] ∧
    ∀ rowId ∈ rows, (∃ p ∈ packs, p.collection = rowId ∧ (gm = true ∨ p.isPrivate = false)) →
      rowDisplay gm lower packs "" rows rowId = RowDisplay.shown := by
  constructor
  · rfl
  · rintro rowId hrow ⟨p, hp, hcol, hperm⟩
    have hhide : rowInHideList lower packs "" rows rowId = false := by
      simp [rowInHideList]
    have hshow : rowShownInLoop gm lower packs "" rows rowId = true := by
      rw [rowShownInLoop]
      simp only [Bool.and_eq_true, List.any_eq_true]
      refine ⟨List.elem_eq_true_of_mem hrow, p, ?_, ?_⟩
      · simpa [filteredPacks] using hp
      · rcases hperm with h | h <;> simp [hcol, h]
    rw [rowDisplay, hhide]
    simp only [Bool.false_eq_true, if_false]
    rw [if_pos hshow]

/-- Witness for C9: the scenario pack's row is shown on the empty query and
the empty query produces no matches. -/
theorem empty_query_shows_permitted_witness :
    docMatches localeLower [goblinRec] "" = [] ∧
    rowDisplay false localeLower [bestiaryPack] "" ["p1"] "p1" = RowDisplay.shown :=
  ⟨(empty_query_shows_permitted false localeLower [bestiaryPack] ["p1"] [goblinRec]).1,
   (empty_query_shows_permitted false localeLower [bestiaryPack] ["p1"] [goblinRec]).2
     "p1" (by decide) ⟨bestiaryPack, by decide, rfl, Or.inr rfl⟩⟩

/-- C6: For every invocation of the reconciliation `_onSearchFilter`, zero
document matches (in particular zero visible rows) never raise an error;
the invocation throws exactly when a document match exists and the
match-row template anchor is absent, aborting the reconciliation with the
fatal configuration error `"Match template not found"`. -/
theorem onSearchFilter_error_iff (gm : Bool) (lower : String → String) (packs : List Pack)
    (rows : List String) (records : List SearchIndexRecord) (typeLists : List String)
    (tmpl : Bool) (query : String) :
    ((∃ e, onSearchFilter gm lower packs rows records typeLists tmpl query = Except.error e) ↔
      docMatches lower records query ≠ [] ∧ tmpl = false) ∧
    (docMatches lower records query = [] →
      ∃ out, onSearchFilter gm lower packs rows records typeLists tmpl query = Except.ok out) := by
  constructor
  · constructor
    · rintro ⟨e, he⟩
      rw [onSearchFilter] at he
      by_cases h0 : (docMatches lower records query).length = 0
      · rw [if_pos h0] at he
        cases he
      · rw [if_neg h0] at he
        by_cases ht : tmpl = true
        · rw [if_pos ht] at he
          cases he
        · exact ⟨fun hnil => h0 (by rw [hnil]; rfl), Bool.eq_false_iff.mpr ht⟩
    · rintro ⟨hne, htmpl⟩
      refine ⟨"Match template not found", ?_⟩
      rw [onSearchFilter, if_neg (by simpa [List.length_eq_zero] using hne), htmpl]
      simp
  · intro h
    rw [onSearchFilter]
    exact ⟨_, by rw [if_pos (by rw [h]; rfl)]⟩

/-- Witness for C6: with the scenario's match present and the template
absent the pass errors; with no match it succeeds even without the
template. -/
theorem onSearchFilter_error_iff_witness :
    (∃ e, onSearchFilter false localeLower [bestiaryPack] ["p1"]
        (compileSearchIndex false [bestiaryPack]) ["Actor"] false "gob" = Except.error e) ∧
    (∃ out, onSearchFilter false localeLower [bestiaryPack] ["p1"]
        (compileSearchIndex false [bestiaryPack]) ["Actor"] false "zzz" = Except.ok out) :=
  ⟨(onSearchFilter_error_iff false localeLower [bestiaryPack] ["p1"]
      (compileSearchIndex false [bestiaryPack]) ["Actor"] false "gob").1.mpr
      ⟨by decide, rfl⟩,
   (onSearchFilter_error_iff false localeLower [bestiaryPack] ["p1"]
      (compileSearchIndex false [bestiaryPack]) ["Actor"] false "zzz").2 (by decide)⟩

/-- C3: For every query and every private pack, a non-GM viewer never has
that pack's row made visible by reconciliation (under the identification
hypotheses that every pack sharing its collection id, resp. its metadata,
is also private — trivially satisfied when ids are unique), and the
document search over the index compiled for a non-GM never returns a match
carrying that pack's metadata, even when the pack's title or one of its
document names matches the query exactly. -/
theorem private_pack_never_surfaces (lower : String → String) (packs : List Pack)
    (rows : List String) (query : String) (p : Pack) (hp : p ∈ packs)
    (hpriv : p.isPrivate = true)
    (hc : ∀ q ∈ packs, q.collection = p.collection → q.isPrivate = true)
    (hm : ∀ q ∈ packs, q.metadata = p.metadata → q.isPrivate = true) :
    rowDisplay false lower packs query rows p.collection ≠ RowDisplay.shown ∧
    ∀ r ∈ docMatches lower (compileSearchIndex false packs) query,
      r.metadata ≠ p.metadata := by
  constructor
  · have hshow : rowShownInLoop false lower packs query rows p.collection = false := by
      rw [rowShownInLoop, Bool.eq_false_iff]
      intro hand
      rw [Bool.and_eq_true] at hand
      obtain ⟨-, hany⟩ := hand
      rcases List.any_eq_true.mp hany with ⟨q, hq, hqc⟩
      rw [Bool.and_eq_true] at hqc
      obtain ⟨hcol, hperm⟩ := hqc
      have hqp : q ∈ packs := mem_of_mem_filteredPacks hq
      have hqcol : q.collection = p.collection := by simpa using hcol
      have hqpriv := hc q hqp hqcol
      simp [hqpriv] at hperm
    rw [rowDisplay]
    by_cases hhide : rowInHideList lower packs query rows p.collection = true
    · rw [if_pos hhide]
      intro h
      cases h
    · rw [if_neg hhide, if_neg (by rw [hshow]; intro h; cases h)]
      intro h
      cases h
  · intro r hr heq
    have hr2 : r ∈ compileSearchIndex false packs := by
      rw [docMatches] at hr
      by_cases hq : query.length > 0
      · rw [if_pos hq] at hr
        exact mem_of_mem_search hr
      · rw [if_neg hq] at hr
        cases hr
    rcases mem_compileSearchIndex.mp hr2 with ⟨q, hqp, helig, e, he, hrec⟩
    have hqpriv : q.isPrivate = false := by
      rcases (eligiblePack_iff.mp helig).2.2 with h | h
      · cases h
      · exact h
    have hqmeta : q.metadata = p.metadata := by
      rw [← hrec] at heq
      exact heq
    rw [hm q hqp hqmeta] at hqpriv
    cases hqpriv

/-- Witness for C3: a private pack whose title and single document name
equal the query `"secret"` exactly (up to case folding). -/
theorem private_pack_never_surfaces_witness :
    rowDisplay false localeLower [secretPack] "secret" ["s1"] "s1" ≠ RowDisplay.shown ∧
    ∀ r ∈ docMatches localeLower (compileSearchIndex false [secretPack]) "secret",
      r.metadata ≠ secretPack.metadata :=
  private_pack_never_surfaces localeLower [secretPack] ["s1"] "secret" secretPack
    (by decide) (by decide) (by decide) (by decide)

/-- C2 counterexample: for the non-empty query `"x goblin"` the record
named `"Goblin Warrior"` is returned, yet the query term `"x"` (case-folded
`"x"`) is a prefix of no token of the case-folded display name — terms
shorter than 2 characters are dropped by `processTerm`, so the claim's
universal over every term of the query fails. -/
theorem search_short_term_counterexample :
    ("x goblin" ≠ "") ∧
    goblinRec ∈ search localeLower [goblinRec] "x goblin" ∧
    "x" ∈ tokenize "x goblin" ∧
    ¬ ∃ tok ∈ (tokenize goblinRec.name).map localeLower,
        strStartsWith tok (localeLower "x") = true := by
  refine ⟨by decide, by decide, by decide, by decide⟩

/-- C2 (amended): for every query, every record returned by the document
search has a display name that, case-folded, contains every case-folded
query term of length at least 2 as a prefix of at least one of its tokens
(AND semantics with per-term prefix matching; terms shorter than 2
characters are dropped and impose no constraint). -/
theorem search_and_semantics_amended (lower : String → String)
    (records : List SearchIndexRecord) (q : String) (r : SearchIndexRecord) (t : String)
    (hr : r ∈ search lower records q) (ht : t ∈ tokenize q) (hlen : 2 ≤ t.length) :
    ∃ tok ∈ (tokenize r.name).map lower, strStartsWith tok (lower t) = true := by
  have hterm : lower t ∈ queryTerms lower q := by
    rw [queryTerms, List.mem_filterMap]
    exact ⟨t, ht, by rw [processTerm, if_pos (by omega)]⟩
  have hmatch := termMatches_of_mem_search hr (lower t) hterm
  rw [termMatches] at hmatch
  rcases List.any_eq_true.mp hmatch with ⟨tok, htok, hstart⟩
  rw [indexTokens, List.mem_filterMap] at htok
  rcases htok with ⟨u, hu, hproc⟩
  rw [processTerm] at hproc
  by_cases hul : u.length > 1
  · rw [if_pos hul] at hproc
    cases hproc
    exact ⟨lower u, List.mem_map_of_mem lower hu, hstart⟩
  · rw [if_neg hul] at hproc
    cases hproc

/-- Witness for the amended C2 at the scenario query `"gob"`. -/
theorem search_and_semantics_amended_witness :
    ∃ tok ∈ (tokenize goblinRec.name).map localeLower,
      strStartsWith tok (localeLower "gob") = true :=
  search_and_semantics_amended localeLower [goblinRec] "gob" goblinRec "gob"
    (by decide) (by decide) (by decide)

/-- C1 counterexample: for the spec's scenario pack and the query `"gob"`,
the document pass does return exactly the match `{id: "e1", packId: "p1"}`,
but the container pass does not show row `"p1"`: the row's final display is
`hidden`, because row visibility is decided solely by the title-substring
test and `"Bestiary"` does not contain `"gob"`. -/
theorem scenario_gob_row_not_shown :
    docMatches localeLower (compileSearchIndex false [bestiaryPack]) "gob" = [goblinRec] ∧
    goblinRec.id = "e1" ∧ goblinRec.metadata.id = "p1" ∧
    rowDisplay false localeLower [bestiaryPack] "gob" ["p1"] "p1" ≠ RowDisplay.shown := by
  refine ⟨by decide, rfl, rfl, by decide⟩

/-- C1 (amended): for the input pack list
`[{id "p1", title "Bestiary", type "Actor", private false,
entries [{id "e1", name "Goblin Warrior"}]}]` and query `"gob"`, the
document pass returns exactly one match with document id `"e1"` and owning
pack id `"p1"`, and that match is placed in the `"Actor"` type group; the
container pass, however, hides row `"p1"`, since row visibility depends
only on the title containing the query and `"Bestiary"` does not contain
`"gob"` — a document match does not make its pack's row visible. -/
theorem scenario_gob_amended :
    docMatches localeLower (compileSearchIndex false [bestiaryPack]) "gob" = [goblinRec] ∧
    goblinRec.id = "e1" ∧ goblinRec.metadata.id = "p1" ∧
    rowDisplay false localeLower [bestiaryPack] "gob" ["p1"] "p1" = RowDisplay.hidden ∧
    groupedMatches ["Actor"]
        (docMatches localeLower (compileSearchIndex false [bestiaryPack]) "gob") =
      [("Actor", [goblinRec])] := by
  refine ⟨by decide, rfl, rfl, by decide, by decide⟩

/-- C5: Building the index from the compiled records fails with a signaled
duplicate-key error whenever two records share an identifier — it never
silently overwrites nor silently admits a second record under an
already-used key — and with N distinct identifiers the build succeeds with
exactly those N records, each retrievable by its own identifier. -/
theorem addAll_signals_duplicate_key (gm : Bool) (packs : List Pack) :
    (((compileSearchIndex gm packs).map SearchIndexRecord.id).Nodup →
      addAll [] (compileSearchIndex gm packs) = Except.ok (compileSearchIndex gm packs) ∧
      ∀ r ∈ compileSearchIndex gm packs,
        getById (compileSearchIndex gm packs) r.id = some r) ∧
    (¬ ((compileSearchIndex gm packs).map SearchIndexRecord.id).Nodup →
      ∃ msg, addAll [] (compileSearchIndex gm packs) = Except.error msg) := by
  constructor
  · intro h
    refine ⟨?_, getById_of_nodup _ h⟩
    have := addAll_ok_of_nodup (compileSearchIndex gm packs) []
    simpa using this (by simpa using h)
  · intro h
    rcases hres : addAll [] (compileSearchIndex gm packs) with msg | out
    · exact ⟨msg, rfl⟩
    · exfalso
      have h2 := addAll_ok_nodup (compileSearchIndex gm packs) [] out hres (by simp)
      exact h (by simpa using h2.2)

/-- Witness for C5: the scenario index builds to exactly its one record,
retrievable by `"e1"`; duplicating the pack duplicates the identifier and
the build signals an error. -/
theorem addAll_signals_duplicate_key_witness :
    (addAll [] (compileSearchIndex false [bestiaryPack]) =
        Except.ok (compileSearchIndex false [bestiaryPack]) ∧
      getById (compileSearchIndex false [bestiaryPack]) "e1" = some goblinRec) ∧
    ∃ msg, addAll [] (compileSearchIndex false [bestiaryPack, bestiaryPack]) =
      Except.error msg := by
  have h1 := (addAll_signals_duplicate_key false [bestiaryPack]).1 (by decide)
  have h2 := (addAll_signals_duplicate_key false [bestiaryPack, bestiaryPack]).2 (by decide)
  exact ⟨⟨h1.1, h1.2 goblinRec (by decide)⟩, h2⟩

end CompendiumDirectoryPF2e
